import Mathlib

/-!
Shallow embedding of the carrier-integration service's resilience and
orchestration core, together with proofs of the specified properties.

Embedded components (file of origin in the repository is noted on each
definition):
* `CircuitBreaker` — the per-dependency fault-isolation state machine
  (`src/utils/circuitBreaker.ts`).
* `withRetry` — the generic retry-with-backoff executor (`src/utils/retry.ts`).
* `UpsAuthClient` — the token-lifecycle manager (`src/carriers/ups/UpsAuthClient.ts`).
* `RateService` — the multi-carrier orchestrator with its LRU result cache
  (`src/service/RateService.ts`), and the request validator
  (`src/domain/validation/schemas.ts`).

Time is modelled as an explicit parameter (milliseconds, as produced by
`Date.now()`); JavaScript numbers are modelled as `ℚ` where fractional values
occur and as `Nat`/`Int` where the code only ever holds integers; promises are
modelled by explicit state passing, with each `await`-free critical section of
the single-threaded event-loop semantics embedded as one atomic transition.
-/

namespace CarrierService

/-! ## CircuitBreaker (`src/utils/circuitBreaker.ts`) -/

/-- `CircuitState` enum. -/
inductive CircuitState where
  | CLOSED
  | OPEN
  | HALF_OPEN
deriving DecidableEq, Repr

/-- `CircuitBreakerOptions`. `timeout` is the cooldown duration in ms. -/
structure CircuitBreakerOptions where
  failureThreshold : Nat
  successThreshold : Nat
  timeout : Nat
deriving DecidableEq, Repr

/-- `DEFAULT_CIRCUIT_BREAKER_OPTIONS`. -/
def DEFAULT_CIRCUIT_BREAKER_OPTIONS : CircuitBreakerOptions :=
  { failureThreshold := 5, successThreshold := 2, timeout := 60000 }

/-- The mutable fields of a `CircuitBreaker` instance plus its options. -/
structure CircuitBreaker where
  state : CircuitState
  failureCount : Nat
  successCount : Nat
  nextAttemptTime : Nat
  options : CircuitBreakerOptions
deriving DecidableEq, Repr

namespace CircuitBreaker

/-- Field initialisers of the `CircuitBreaker` constructor. -/
def init (options : CircuitBreakerOptions) : CircuitBreaker :=
  { state := .CLOSED, failureCount := 0, successCount := 0,
    nextAttemptTime := 0, options := options }

/-- `onSuccess`: reset the failure counter; in HALF_OPEN, count the success
and close the circuit once `successThreshold` consecutive successes occur. -/
def onSuccess (cb : CircuitBreaker) : CircuitBreaker :=
  let cb := { cb with failureCount := 0 }
  if cb.state = .HALF_OPEN then
    let cb := { cb with successCount := cb.successCount + 1 }
    if cb.options.successThreshold ≤ cb.successCount then
      { cb with state := .CLOSED, successCount := 0 }
    else cb
  else cb

/-- `onFailure` at time `now`: count the failure; open the circuit when in
HALF_OPEN or when the failure count reaches `failureThreshold`, setting the
cooldown deadline `nextAttemptTime = now + timeout`. -/
def onFailure (cb : CircuitBreaker) (now : Nat) : CircuitBreaker :=
  let cb := { cb with failureCount := cb.failureCount + 1, successCount := 0 }
  if cb.state = .HALF_OPEN ∨ cb.options.failureThreshold ≤ cb.failureCount then
    { cb with state := .OPEN, nextAttemptTime := now + cb.options.timeout }
  else cb

/-- Result of one `execute` call: either the wrapped operation's own result,
or the `CircuitBreakerOpenError` thrown without invoking the operation. -/
inductive ExecResult (E T : Type) where
  | ok (t : T)
  | err (e : E)
  | circuitOpenError
deriving DecidableEq, Repr

/-- `execute` at time `now`. The wrapped async operation is modelled by the
outcome `fn` it would have if invoked. Returns the call's result, whether the
operation was actually invoked, and the updated breaker state. -/
def execute (cb : CircuitBreaker) (now : Nat) (fn : Except E T) :
    ExecResult E T × Bool × CircuitBreaker :=
  if cb.state = .OPEN ∧ now < cb.nextAttemptTime then
    (.circuitOpenError, false, cb)
  else
    let cb :=
      if cb.state = .OPEN then { cb with state := .HALF_OPEN, successCount := 0 }
      else cb
    match fn with
    | .ok t => (.ok t, true, cb.onSuccess)
    | .error e => (.err e, true, cb.onFailure now)

/-- `getState` at time `now`: performs the lazy OPEN → HALF_OPEN transition
once the cooldown has elapsed, then reports the state. -/
def getState (cb : CircuitBreaker) (now : Nat) : CircuitState × CircuitBreaker :=
  if cb.state = .OPEN ∧ cb.nextAttemptTime ≤ now then
    (.HALF_OPEN, { cb with state := .HALF_OPEN, successCount := 0 })
  else (cb.state, cb)

/-- `reset`. -/
def reset (cb : CircuitBreaker) : CircuitBreaker :=
  { cb with
      state := .CLOSED
      failureCount := 0
      successCount := 0
      nextAttemptTime := 0 }

/-- Iterate `n` failing `execute` calls at time `now`. -/
def failN (cb : CircuitBreaker) (now : Nat) : Nat → CircuitBreaker
  | 0 => cb
  | n + 1 => failN (cb.execute now (Except.error () : Except Unit Unit) |>.2.2) now n

/-- Iterate `n` succeeding `execute` calls at time `now`. -/
def succeedN (cb : CircuitBreaker) (now : Nat) : Nat → CircuitBreaker
  | 0 => cb
  | n + 1 => succeedN (cb.execute now (Except.ok () : Except Unit Unit) |>.2.2) now n

end CircuitBreaker

end CarrierService

namespace CarrierService.CircuitBreaker

theorem execute_ne_open {E T : Type} (cb : CircuitBreaker) (now : Nat)
    (fn : Except E T) (h : cb.state ≠ .OPEN) :
    cb.execute now fn =
      match fn with
      | .ok t => (.ok t, true, cb.onSuccess)
      | .error e => (.err e, true, cb.onFailure now) := by
  unfold execute
  rw [if_neg (fun hc => h hc.1), if_neg h]

theorem execute_ne_open_ok {E T : Type} (cb : CircuitBreaker) (now : Nat)
    (t : T) (h : cb.state ≠ .OPEN) :
    cb.execute now (Except.ok t : Except E T) = (.ok t, true, cb.onSuccess) := by
  rw [execute_ne_open _ _ _ h]

theorem execute_ne_open_err {E T : Type} (cb : CircuitBreaker) (now : Nat)
    (e : E) (h : cb.state ≠ .OPEN) :
    cb.execute now (Except.error e : Except E T) = (.err e, true, cb.onFailure now) := by
  rw [execute_ne_open _ _ _ h]

theorem execute_open_early {E T : Type} (cb : CircuitBreaker) (now : Nat)
    (fn : Except E T) (hs : cb.state = .OPEN) (ht : now < cb.nextAttemptTime) :
    cb.execute now fn = (.circuitOpenError, false, cb) := by
  unfold execute
  rw [if_pos ⟨hs, ht⟩]

theorem execute_open_elapsed {E T : Type} (cb : CircuitBreaker) (now : Nat)
    (fn : Except E T) (hs : cb.state = .OPEN) (ht : cb.nextAttemptTime ≤ now) :
    cb.execute now fn =
      match fn with
      | .ok t => (.ok t, true,
          ({ cb with state := .HALF_OPEN, successCount := 0 } : CircuitBreaker).onSuccess)
      | .error e => (.err e, true,
          ({ cb with state := .HALF_OPEN, successCount := 0 } : CircuitBreaker).onFailure now) := by
  unfold execute
  rw [if_neg (fun hc => absurd hc.2 (by omega)), if_pos hs]

theorem failN_closed (opts : CircuitBreakerOptions) (now : Nat) :
    ∀ k c, c < opts.failureThreshold → k ≤ opts.failureThreshold - c →
    failN { state := .CLOSED, failureCount := c, successCount := 0,
            nextAttemptTime := 0, options := opts } now k =
      if k = opts.failureThreshold - c then
        { state := .OPEN, failureCount := opts.failureThreshold,
          successCount := 0, nextAttemptTime := now + opts.timeout,
          options := opts }
      else
        { state := .CLOSED, failureCount := c + k, successCount := 0,
          nextAttemptTime := 0, options := opts } := by
  intro k
  induction k with
  | zero =>
    intro c hc _
    have h0 : ¬(0 = opts.failureThreshold - c) := by omega
    simp [failN, h0]
  | succ n ih =>
    intro c hc hk
    rw [failN, execute_ne_open_err _ _ _ (by simp)]
    simp only [onFailure]
    by_cases hthr : opts.failureThreshold ≤ c + 1
    · -- this failure reaches the threshold: the breaker opens now
      have hc1 : c + 1 = opts.failureThreshold := by omega
      have hn : n = 0 := by omega
      subst hn
      rw [if_pos (Or.inr hthr)]
      rw [failN, if_pos (by omega)]
      simp [hc1]
    · -- still below the threshold: stays CLOSED with one more failure
      rw [if_neg (by simp [hthr])]
      rw [ih (c + 1) (by omega) (by omega)]
      by_cases h : n = opts.failureThreshold - (c + 1)
      · rw [if_pos h, if_pos (by omega)]
      · rw [if_neg h, if_neg (by omega)]
        simp [Nat.add_assoc, Nat.add_comm 1 n]

theorem succeedN_halfOpen (opts : CircuitBreakerOptions) (now t : Nat) :
    ∀ k fc s, s < opts.successThreshold → 1 ≤ k → k ≤ opts.successThreshold - s →
    succeedN { state := .HALF_OPEN, failureCount := fc, successCount := s,
               nextAttemptTime := t, options := opts } now k =
      if k = opts.successThreshold - s then
        { state := .CLOSED, failureCount := 0, successCount := 0,
          nextAttemptTime := t, options := opts }
      else
        { state := .HALF_OPEN, failureCount := 0, successCount := s + k,
          nextAttemptTime := t, options := opts } := by
  intro k
  induction k with
  | zero => intro fc s _ h1 _; omega
  | succ n ih =>
    intro fc s hs _ hk
    rw [succeedN, execute_ne_open_ok _ _ _ (by simp)]
    simp only [onSuccess, reduceIte]
    by_cases hthr : opts.successThreshold ≤ s + 1
    · have hn : n = 0 := by omega
      subst hn
      rw [if_pos hthr]
      rw [succeedN, if_pos (by omega)]
    · rw [if_neg hthr]
      rcases Nat.eq_zero_or_pos n with hn | hn1
      · subst hn
        rw [succeedN, if_neg (by omega)]
      · rw [ih 0 (s + 1) (by omega) hn1 (by omega)]
        by_cases h : n = opts.successThreshold - (s + 1)
        · rw [if_pos h, if_pos (by omega)]
        · rw [if_neg h, if_neg (by omega)]
          simp [Nat.add_assoc, Nat.add_comm 1 n]

/-- C2: the CircuitBreaker satisfies the specified state machine: it starts
CLOSED; from a fresh breaker, after exactly `failureThreshold` consecutive
failures the state is OPEN (and CLOSED after any fewer); every `execute` call
while OPEN before the cooldown deadline throws the circuit-open error without
invoking the wrapped operation and without changing state; once the cooldown
has elapsed, `getState` observes HALF_OPEN with the success counter reset, and
`execute` enters HALF_OPEN (success counter reset) before invoking the
operation; after `successThreshold` consecutive successes in HALF_OPEN the
state is CLOSED; and any single failure in HALF_OPEN returns the state to OPEN
with a fresh cooldown deadline `now + timeout`. -/
theorem circuitBreaker_state_machine (opts : CircuitBreakerOptions) :
    ((CircuitBreaker.init opts).state = .CLOSED) ∧
    (1 ≤ opts.failureThreshold → ∀ now : Nat,
      (failN (CircuitBreaker.init opts) now opts.failureThreshold).state = .OPEN ∧
      (failN (CircuitBreaker.init opts) now
          opts.failureThreshold).nextAttemptTime = now + opts.timeout ∧
      (∀ k, k < opts.failureThreshold →
        (failN (CircuitBreaker.init opts) now k).state = .CLOSED)) ∧
    (∀ (cb : CircuitBreaker) (now : Nat) (fn : Except Unit Unit),
      cb.state = .OPEN → now < cb.nextAttemptTime →
      cb.execute now fn = (.circuitOpenError, false, cb)) ∧
    (∀ (cb : CircuitBreaker) (now : Nat),
      cb.state = .OPEN → cb.nextAttemptTime ≤ now →
      cb.getState now =
        (.HALF_OPEN, { cb with state := .HALF_OPEN, successCount := 0 })) ∧
    (∀ (cb : CircuitBreaker) (now : Nat) (fn : Except Unit Unit),
      cb.state = .OPEN → cb.nextAttemptTime ≤ now →
      (cb.execute now fn).2.1 = true ∧
      cb.execute now fn =
        ({ cb with state := .HALF_OPEN, successCount := 0 } : CircuitBreaker).execute
          now fn) ∧
    (1 ≤ opts.successThreshold → ∀ (now t fc : Nat),
      (succeedN { state := .HALF_OPEN, failureCount := fc, successCount := 0,
                  nextAttemptTime := t, options := opts } now
          opts.successThreshold).state = .CLOSED) ∧
    (∀ (cb : CircuitBreaker) (now : Nat) (e : Unit),
      cb.state = .HALF_OPEN →
      ((cb.execute now (Except.error e : Except Unit Unit)).2.2.state = .OPEN ∧
        (cb.execute now
            (Except.error e : Except Unit Unit)).2.2.nextAttemptTime =
          now + cb.options.timeout)) := by
  refine ⟨rfl, ?_, ?_, ?_, ?_, ?_, ?_⟩
  · intro hthr now
    have hmain := failN_closed opts now opts.failureThreshold 0 (by omega) (by omega)
    rw [if_pos (by omega)] at hmain
    refine ⟨?_, ?_, ?_⟩
    · rw [show CircuitBreaker.init opts =
        { state := .CLOSED, failureCount := 0, successCount := 0,
          nextAttemptTime := 0, options := opts } from rfl, hmain]
    · rw [show CircuitBreaker.init opts =
        { state := .CLOSED, failureCount := 0, successCount := 0,
          nextAttemptTime := 0, options := opts } from rfl, hmain]
    · intro k hk
      have h := failN_closed opts now k 0 (by omega) (by omega)
      rw [if_neg (by omega)] at h
      rw [show CircuitBreaker.init opts =
        { state := .CLOSED, failureCount := 0, successCount := 0,
          nextAttemptTime := 0, options := opts } from rfl, h]
  · intro cb now fn hs ht
    exact execute_open_early cb now fn hs ht
  · intro cb now hs ht
    unfold getState
    rw [if_pos ⟨hs, ht⟩]
  · intro cb now fn hs ht
    rw [execute_open_elapsed cb now fn hs ht,
      execute_ne_open ({ cb with state := .HALF_OPEN, successCount := 0 } : CircuitBreaker)
        now fn (by simp)]
    cases fn <;> exact ⟨rfl, rfl⟩
  · intro hthr now t fc
    have h := succeedN_halfOpen opts now t opts.successThreshold fc 0
      (by omega) (by omega) (by omega)
    rw [if_pos (by omega)] at h
    rw [h]
  · intro cb now e hs
    rw [execute_ne_open_err _ _ _ (by rw [hs]; simp)]
    simp only [onFailure]
    rw [if_pos (Or.inl (by rw [hs]))]
    exact ⟨rfl, rfl⟩

/-- Witness for C2 at the default options (thresholds 5 and 2, cooldown
60000 ms), a fresh breaker failed 5 times at t = 100, an OPEN breaker probed
at t = 150 before its deadline 60100, and a HALF_OPEN breaker succeeding twice
or failing once at t = 70000. -/
theorem circuitBreaker_state_machine_witness :
    ((CircuitBreaker.init DEFAULT_CIRCUIT_BREAKER_OPTIONS).state = .CLOSED) ∧
    (failN (CircuitBreaker.init DEFAULT_CIRCUIT_BREAKER_OPTIONS) 100 5).state = .OPEN ∧
    (failN (CircuitBreaker.init DEFAULT_CIRCUIT_BREAKER_OPTIONS) 100 3).state = .CLOSED ∧
    ({ state := .OPEN, failureCount := 5, successCount := 0,
       nextAttemptTime := 60100,
       options := DEFAULT_CIRCUIT_BREAKER_OPTIONS } : CircuitBreaker).execute
        150 (Except.ok () : Except Unit Unit) =
      (.circuitOpenError, false,
        { state := .OPEN, failureCount := 5, successCount := 0,
          nextAttemptTime := 60100, options := DEFAULT_CIRCUIT_BREAKER_OPTIONS }) ∧
    (({ state := .OPEN, failureCount := 5, successCount := 7,
        nextAttemptTime := 60100,
        options := DEFAULT_CIRCUIT_BREAKER_OPTIONS } : CircuitBreaker).getState
        70000).1 = .HALF_OPEN ∧
    (succeedN { state := .HALF_OPEN, failureCount := 5, successCount := 0,
                nextAttemptTime := 60100,
                options := DEFAULT_CIRCUIT_BREAKER_OPTIONS } 70000 2).state = .CLOSED ∧
    (({ state := .HALF_OPEN, failureCount := 5, successCount := 1,
        nextAttemptTime := 60100,
        options := DEFAULT_CIRCUIT_BREAKER_OPTIONS } : CircuitBreaker).execute
          70000 (Except.error () : Except Unit Unit)).2.2.state = .OPEN := by
  obtain ⟨h1, h2, h3, h4, _h5, h6, h7⟩ :=
    circuitBreaker_state_machine DEFAULT_CIRCUIT_BREAKER_OPTIONS
  refine ⟨h1, (h2 (by decide) 100).1, (h2 (by decide) 100).2.2 3 (by decide),
    h3 _ 150 _ (by decide) (by decide), ?_, h6 (by decide) 70000 60100 5,
    (h7 _ 70000 () (by decide)).1⟩
  rw [h4 _ 70000 (by decide) (by decide)]

end CarrierService.CircuitBreaker

namespace CarrierService

/-! ## withRetry (`src/utils/retry.ts`)

The executor is deterministic once the per-attempt outcomes and the stream of
`Math.random()` draws are fixed, so it is embedded as a function of
`fn : Nat → Except E A` (outcome of the k-th invocation, 1-indexed) and
`rand : Nat → ℚ` (the random draw consumed before the k-th backoff sleep).
The trace records the propagated result, the number of invocations of `fn`,
and the list of sleep durations in order. -/

/-- `RetryOptions`, after the merge with `DEFAULT_RETRY_OPTIONS` that
`withRetry` performs on entry; `shouldRetry` is the optional predicate. -/
structure RetryOptions (E : Type) where
  maxAttempts : Nat
  initialDelayMs : ℚ
  maxDelayMs : ℚ
  backoffMultiplier : ℚ
  shouldRetry : Option (E → Bool)

/-- `DEFAULT_RETRY_OPTIONS` (no `shouldRetry` supplied). -/
def DEFAULT_RETRY_OPTIONS (E : Type) : RetryOptions E :=
  { maxAttempts := 3, initialDelayMs := 1000, maxDelayMs := 8000,
    backoffMultiplier := 2, shouldRetry := none }

/-- Observable trace of one `withRetry` run. `result = .error none` models
`throw lastError` with `lastError` still `undefined` (reachable only when
`maxAttempts = 0`, since the for-loop body then never runs). -/
structure RetryTrace (E A : Type) where
  result : Except (Option E) A
  invocations : Nat
  delays : List ℚ
deriving Repr

/-- The jitter scale `0.75 + Math.random() * 0.5` applied to a backoff delay,
as a function of the random draw `r ∈ [0, 1)`. -/
def jitterFactor (r : ℚ) : ℚ := 3 / 4 + r * (1 / 2)

/-- The body of `withRetry`'s for-loop. `fuel` is the number of loop
iterations still allowed (`maxAttempts - attempt + 1`); `inv` and `delays`
accumulate the trace. The `attempt === maxAttempts` break followed by
`throw lastError` is modelled by propagating that attempt's error. -/
def withRetryGo (fn : Nat → Except E A) (rand : Nat → ℚ)
    (opts : RetryOptions E) : Nat → Nat → Nat → List ℚ → RetryTrace E A
  | _, 0, inv, delays => ⟨.error none, inv, delays.reverse⟩
  | attempt, fuel + 1, inv, delays =>
    match fn attempt with
    | .ok a => ⟨.ok a, inv + 1, delays.reverse⟩
    | .error e =>
      if (match opts.shouldRetry with
          | some p => !(p e)
          | none => false) then
        ⟨.error (some e), inv + 1, delays.reverse⟩
      else if attempt = opts.maxAttempts then
        ⟨.error (some e), inv + 1, delays.reverse⟩
      else
        let delay := min
          (opts.initialDelayMs * opts.backoffMultiplier ^ (attempt - 1))
          opts.maxDelayMs
        withRetryGo fn rand opts (attempt + 1) fuel (inv + 1)
          (delay * jitterFactor (rand attempt) :: delays)

/-- `withRetry`: run the loop from attempt 1. -/
def withRetry (fn : Nat → Except E A) (rand : Nat → ℚ)
    (opts : RetryOptions E) : RetryTrace E A :=
  withRetryGo fn rand opts 1 opts.maxAttempts 0 []

/-- Modelled from the spec (§4.2 RetryExecutor): attempt 1 runs immediately;
on failure, if the retryability predicate rejects the error or the attempt
count has reached `maxAttempts`, that exact failure propagates immediately
with no further delay; otherwise the executor sleeps
`min(initialDelay · backoffMultiplier^(attempt−1), maxDelay)` scaled by the
jitter factor and retries; exhausting all attempts propagates the most recent
failure, never a synthetic max-retries error. A missing predicate means the
predicate never rejects. -/
def retrySpecGo (fn : Nat → Except E A) (rand : Nat → ℚ)
    (opts : RetryOptions E) : Nat → Nat → RetryTrace E A
  | _, 0 => ⟨.error none, 0, []⟩
  | attempt, fuel + 1 =>
    match fn attempt with
    | .ok a => ⟨.ok a, 1, []⟩
    | .error e =>
      if (match opts.shouldRetry with
          | some p => p e
          | none => true) = false ∨ attempt = opts.maxAttempts then
        ⟨.error (some e), 1, []⟩
      else
        let base := min
          (opts.initialDelayMs * opts.backoffMultiplier ^ (attempt - 1))
          opts.maxDelayMs
        let rest := retrySpecGo fn rand opts (attempt + 1) fuel
        ⟨rest.result, rest.invocations + 1,
          base * jitterFactor (rand attempt) :: rest.delays⟩

/-- The spec-described executor, from attempt 1. -/
def retrySpec (fn : Nat → Except E A) (rand : Nat → ℚ)
    (opts : RetryOptions E) : RetryTrace E A :=
  retrySpecGo fn rand opts 1 opts.maxAttempts

end CarrierService

namespace CarrierService

theorem withRetryGo_eq_retrySpecGo (fn : Nat → Except E A) (rand : Nat → ℚ)
    (opts : RetryOptions E) :
    ∀ fuel attempt inv delays,
    withRetryGo fn rand opts attempt fuel inv delays =
      { result := (retrySpecGo fn rand opts attempt fuel).result,
        invocations := inv + (retrySpecGo fn rand opts attempt fuel).invocations,
        delays := delays.reverse ++ (retrySpecGo fn rand opts attempt fuel).delays } := by
  intro fuel
  induction fuel with
  | zero =>
    intro attempt inv delays
    simp [withRetryGo, retrySpecGo]
  | succ n ih =>
    intro attempt inv delays
    rw [withRetryGo, retrySpecGo]
    cases hfn : fn attempt with
    | ok a => simp
    | error e =>
      simp only []
      by_cases hpred : (match opts.shouldRetry with
          | some p => !(p e)
          | none => false) = true
      · rw [if_pos hpred, if_pos]
        · simp
        · left
          cases hsr : opts.shouldRetry with
          | none => rw [hsr] at hpred; simp at hpred
          | some p => rw [hsr] at hpred; simpa using hpred
      · rw [if_neg hpred]
        by_cases hmax : attempt = opts.maxAttempts
        · rw [if_pos hmax, if_pos (Or.inr hmax)]
          simp
        · rw [if_neg hmax, if_neg]
          · rw [ih]
            simp [List.append_assoc]
            omega
          · rintro (hl | hr)
            · cases hsr : opts.shouldRetry with
              | none => rw [hsr] at hl; simp at hl
              | some p =>
                rw [hsr] at hl
                rw [hsr] at hpred
                simp at hl hpred
                exact absurd hl.symm (by simpa using hpred)
            · exact hmax hr

theorem retrySpecGo_all_fail (fn : Nat → Except E A) (rand : Nat → ℚ)
    (opts : RetryOptions E) (err : Nat → E)
    (hfn : ∀ k, fn k = .error (err k))
    (hretry : ∀ k, (match opts.shouldRetry with
        | some p => p (err k)
        | none => true) = true) :
    ∀ fuel attempt, 1 ≤ fuel → attempt + fuel = opts.maxAttempts + 1 →
    (retrySpecGo fn rand opts attempt fuel).result =
        .error (some (err opts.maxAttempts)) ∧
    (retrySpecGo fn rand opts attempt fuel).invocations = fuel := by
  intro fuel
  induction fuel with
  | zero => intro _ h1 _; omega
  | succ n ih =>
    intro attempt _ hsum
    simp only [retrySpecGo, hfn]
    rcases Nat.eq_zero_or_pos n with hn | hn
    · subst hn
      have hat : attempt = opts.maxAttempts := by omega
      rw [if_pos (Or.inr hat), hat]
      exact ⟨rfl, rfl⟩
    · rw [if_neg ?_]
      · obtain ⟨h1, h2⟩ := ih (attempt + 1) (by omega) (by omega)
        refine ⟨h1, ?_⟩
        show (retrySpecGo fn rand opts (attempt + 1) n).invocations + 1 = n + 1
        rw [h2]
      · rintro (hl | hr)
        · rw [hretry attempt] at hl
          exact absurd hl (by decide)
        · omega

/-- C6: `withRetry` follows the specified algorithm for every operation and
configuration with at least one attempt: its full trace (propagated result,
invocation count, backoff sleeps) equals that of the executor written from the
spec's words; the jitter scale lies in [0.75, 1.25] for every random draw in
[0, 1); a success on attempt 1 returns immediately with no sleep; a failure
the retryability predicate rejects propagates exactly that failure immediately
with one invocation and no sleep; and when every attempt fails retryably, the
most recent failure (attempt `maxAttempts`'s own error, never a synthetic
max-retries error) propagates after exactly `maxAttempts` invocations. -/
theorem withRetry_follows_spec_algorithm {E A : Type}
    (fn : Nat → Except E A) (rand : Nat → ℚ) (opts : RetryOptions E) :
    (withRetry fn rand opts = retrySpec fn rand opts) ∧
    (∀ r : ℚ, 0 ≤ r → r < 1 →
      3 / 4 ≤ jitterFactor r ∧ jitterFactor r ≤ 5 / 4) ∧
    (∀ a, fn 1 = .ok a → 1 ≤ opts.maxAttempts →
      withRetry fn rand opts = ⟨.ok a, 1, []⟩) ∧
    (∀ e p, opts.shouldRetry = some p → fn 1 = .error e → p e = false →
      1 ≤ opts.maxAttempts →
      withRetry fn rand opts = ⟨.error (some e), 1, []⟩) ∧
    (∀ err : Nat → E, 1 ≤ opts.maxAttempts →
      (∀ k, fn k = .error (err k)) →
      (∀ k, (match opts.shouldRetry with
          | some p => p (err k)
          | none => true) = true) →
      (withRetry fn rand opts).result = .error (some (err opts.maxAttempts)) ∧
      (withRetry fn rand opts).invocations = opts.maxAttempts) := by
  refine ⟨?_, ?_, ?_, ?_, ?_⟩
  · rw [withRetry, retrySpec, withRetryGo_eq_retrySpecGo]
    simp
  · intro r h0 h1
    constructor
    · have : 0 ≤ r * (1 / 2) := by positivity
      unfold jitterFactor
      linarith
    · unfold jitterFactor
      nlinarith
  · intro a hok hmax
    obtain ⟨m, hm⟩ : ∃ m, opts.maxAttempts = m + 1 :=
      ⟨opts.maxAttempts - 1, by omega⟩
    simp [withRetry, hm, withRetryGo, hok]
  · intro e p hsr herr hrej hmax
    obtain ⟨m, hm⟩ : ∃ m, opts.maxAttempts = m + 1 :=
      ⟨opts.maxAttempts - 1, by omega⟩
    simp [withRetry, hm, withRetryGo, herr, hsr, hrej]
  · intro err hmax hfn hretry
    rw [withRetry, withRetryGo_eq_retrySpecGo]
    obtain ⟨h1, h2⟩ := retrySpecGo_all_fail fn rand opts err hfn hretry
      opts.maxAttempts 1 hmax (by omega)
    exact ⟨h1, by simpa using h2⟩

/-- Witness for C6 with `maxAttempts = 3`, `initialDelay = 1000 ms`,
`maxDelay = 8000 ms`, `backoffMultiplier = 2`, predicate "retry iff the error
value is 1", the random draw fixed at 1/2: an immediately succeeding
operation, a non-retryably failing operation, and an always-failing retryable
operation. -/
theorem withRetry_follows_spec_algorithm_witness :
    (withRetry (fun _ => (Except.ok 7 : Except Nat Nat)) (fun _ => 1 / 2)
        ⟨3, 1000, 8000, 2, some (fun e => e == 1)⟩ = ⟨.ok 7, 1, []⟩) ∧
    (withRetry (fun _ => (Except.error 2 : Except Nat Nat)) (fun _ => 1 / 2)
        ⟨3, 1000, 8000, 2, some (fun e => e == 1)⟩ = ⟨.error (some 2), 1, []⟩) ∧
    ((withRetry (fun _ => (Except.error 1 : Except Nat Nat)) (fun _ => 1 / 2)
        ⟨3, 1000, 8000, 2, some (fun e => e == 1)⟩).result = .error (some 1) ∧
      (withRetry (fun _ => (Except.error 1 : Except Nat Nat)) (fun _ => 1 / 2)
        ⟨3, 1000, 8000, 2, some (fun e => e == 1)⟩).invocations = 3) ∧
    (3 / 4 ≤ jitterFactor (1 / 2) ∧ jitterFactor (1 / 2) ≤ 5 / 4) := by
  refine ⟨?_, ?_, ?_, ?_⟩
  · exact (withRetry_follows_spec_algorithm _ (fun _ => 1 / 2)
      ⟨3, 1000, 8000, 2, some (fun e => e == 1)⟩).2.2.1 7 rfl (by decide)
  · exact (withRetry_follows_spec_algorithm _ (fun _ => 1 / 2)
      ⟨3, 1000, 8000, 2, some (fun e => e == 1)⟩).2.2.2.1 2
      (fun e => e == 1) rfl rfl (by decide) (by decide)
  · exact (withRetry_follows_spec_algorithm _ (fun _ => 1 / 2)
      ⟨3, 1000, 8000, 2, some (fun e => e == 1)⟩).2.2.2.2
      (fun _ => 1) (by decide) (fun _ => rfl) (fun _ => rfl)
  · exact (withRetry_follows_spec_algorithm (fun _ => (Except.ok 7 : Except Nat Nat))
      (fun _ => 1 / 2) ⟨3, 1000, 8000, 2, some (fun e => e == 1)⟩).2.1
      (1 / 2) (by norm_num) (by norm_num)

end CarrierService

namespace CarrierService

/-! ## UpsAuthClient (`src/carriers/ups/UpsAuthClient.ts`)

The token-lifecycle manager. JavaScript's single-threaded event loop makes
each synchronous section of `getToken` atomic: the cached-token check, the
in-flight check and the registration of a new refresh promise all happen with
no interleaving, so one `getToken` call is one atomic step on the client
state; the completion of the refresh promise (the writes in `fetchToken` plus
the `.finally` handler) is a second atomic step. -/

/-- The JavaScript error values that flow through the auth path: `HttpError`
(status + body), a plain `Error` (message), and `CarrierError`
(code, carrier, retryable, message, optional cause). All three are
`instanceof Error`; `HttpError`'s own message is `"http <status>"`. -/
inductive JsError where
  | http (status : Nat)
  | plain (message : String)
  | carrier (code : String) (carrierName : String) (retryable : Bool)
      (message : String) (cause : Option JsError)
deriving Repr

/-- The `.message` property of the error. -/
def JsError.message : JsError → String
  | .http status => "http " ++ toString status
  | .plain m => m
  | .carrier _ _ _ m _ => m

/-- `String.toLower` (JavaScript `toLowerCase`), character by character. -/
def strToLower (s : String) : String := ⟨s.data.map Char.toLower⟩

/-- `pat` occurs as a contiguous run in `l` (JavaScript `String.includes`). -/
def charsInclude (pat : List Char) : List Char → Bool
  | [] => pat.isEmpty
  | c :: rest => pat.isPrefixOf (c :: rest) || charsInclude pat rest

/-- JavaScript `s.includes(pat)`. -/
def strIncludes (s pat : String) : Bool := charsInclude pat.toList s.toList

/-- The `shouldRetry` predicate passed to `withRetry` by
`fetchTokenWithRetry`: an `HttpError` is retryable iff its status is ≥ 500 or
429; any other `Error` is retryable iff its lowercased message contains
"timeout", "network" or "econnreset". -/
def authShouldRetry (e : JsError) : Bool :=
  match e with
  | .http status => decide (500 ≤ status) || decide (status = 429)
  | e =>
    let msg := strToLower e.message
    strIncludes msg "timeout" || strIncludes msg "network" ||
      strIncludes msg "econnreset"

/-- The OAuth token endpoint's parsed response body: `access_token` is
`none` when the field is missing (or falsy), `expires_in` is the server-side
lifetime in seconds. -/
structure TokenResponse where
  access_token : Option String
  expires_in : Int
deriving DecidableEq, Repr

/-- The mutable fields of `UpsAuthClient` plus the configured buffer.
`inflightRefresh` holds the identity of the pending refresh promise;
`refreshStarts` counts the refresh operations started so far and doubles as
the next promise identity (instrumentation for the single-flight property). -/
structure UpsAuthClient where
  token : Option String
  expiresAt : Option Int
  inflightRefresh : Option Nat
  tokenBufferSeconds : Int
  refreshStarts : Nat
deriving DecidableEq, Repr

/-- What one `getToken` call did: returned the cached token synchronously,
awaited the already in-flight refresh promise, or started (and then awaited)
a new refresh promise. -/
inductive GetTokenStep where
  | cached (t : String)
  | awaitInflight (id : Nat)
  | startFetch (id : Nat)
deriving DecidableEq, Repr

namespace UpsAuthClient

/-- The tail of `getToken` past the cached-token fast path: join the
in-flight refresh if one exists, otherwise register a new one. -/
def getTokenRefreshPath (s : UpsAuthClient) : GetTokenStep × UpsAuthClient :=
  match s.inflightRefresh with
  | some id => (.awaitInflight id, s)
  | none =>
    (.startFetch s.refreshStarts,
      { s with
          inflightRefresh := some s.refreshStarts
          refreshStarts := s.refreshStarts + 1 })

/-- One `getToken` call at time `now` (ms): if a token is cached and its
time-until-expiry exceeds `tokenBufferSeconds * 1000`, return it with no
I/O; otherwise take the refresh path. -/
def getToken (s : UpsAuthClient) (now : Int) : GetTokenStep × UpsAuthClient :=
  match s.token, s.expiresAt with
  | some t, some exp =>
    if s.tokenBufferSeconds * 1000 < exp - now then (.cached t, s)
    else getTokenRefreshPath s
  | _, _ => getTokenRefreshPath s

/-- The cached-token fast-path guard of `getToken`, as a predicate. -/
def hasValidCached (s : UpsAuthClient) (now : Int) : Bool :=
  match s.token, s.expiresAt with
  | some _, some exp => decide (s.tokenBufferSeconds * 1000 < exp - now)
  | _, _ => false

/-- `n` `getToken` calls arriving back to back at time `now` (no refresh
completion in between), in order. -/
def processCalls (s : UpsAuthClient) (now : Int) :
    Nat → List GetTokenStep × UpsAuthClient
  | 0 => ([], s)
  | n + 1 =>
    let (step, s₁) := getToken s now
    let (rest, s₂) := processCalls s₁ now n
    (step :: rest, s₂)

/-- One `fetchToken` attempt completing at time `now`, given the raw outcome
of the `postForm` call. On a 2xx response the token and
`expiresAt = now + (expires_in − tokenBufferSeconds) · 1000` are stored
before the missing-`access_token` check; every failure is wrapped by the
`catch` block into `CarrierError('AUTH_FAILED', 'UPS', retryable: true, …)`
whose message is `"UPS authentication failed (HTTP <status>)"` for an
`HttpError` and `"UPS authentication request failed"` otherwise. -/
def fetchToken (s : UpsAuthClient) (now : Int)
    (resp : Except JsError TokenResponse) :
    Except JsError String × UpsAuthClient :=
  match resp with
  | .ok r =>
    let s := { s with
      token := r.access_token
      expiresAt := some (now + (r.expires_in - s.tokenBufferSeconds) * 1000) }
    match r.access_token with
    | some tok => (.ok tok, s)
    | none =>
      (.error (.carrier "AUTH_FAILED" "UPS" true
        "UPS authentication request failed"
        (some (.carrier "AUTH_FAILED" "UPS" false
          "UPS authentication response missing access_token" none))), s)
  | .error err =>
    (.error (.carrier "AUTH_FAILED" "UPS" true
      (match err with
       | .http st => "UPS authentication failed (HTTP " ++ toString st ++ ")"
       | _ => "UPS authentication request failed")
      (some err)), s)

/-- The options `fetchTokenWithRetry` passes to `withRetry` (`maxDelayMs` and
`backoffMultiplier` come from `DEFAULT_RETRY_OPTIONS`). -/
def upsAuthRetryOptions : RetryOptions JsError :=
  { maxAttempts := 3, initialDelayMs := 1000, maxDelayMs := 8000,
    backoffMultiplier := 2, shouldRetry := some authShouldRetry }

/-- `fetchTokenWithRetry`: `withRetry` around `fetchToken`, where
`raws k` is the raw outcome the k-th `postForm` call would produce. Only the
successful (final) attempt writes the token fields, so the state update is
that attempt's `fetchToken` write. -/
def fetchTokenWithRetry (s : UpsAuthClient) (now : Int)
    (raws : Nat → Except JsError TokenResponse) (rand : Nat → ℚ) :
    RetryTrace JsError String × UpsAuthClient :=
  let trace := withRetry (fun k => (fetchToken s now (raws k)).1) rand
    upsAuthRetryOptions
  (trace,
    match trace.result with
    | .ok _ => (fetchToken s now (raws trace.invocations)).2
    | _ => s)

/-- Completion of the in-flight refresh promise: the `.finally` handler
clears `inflightRefresh` whatever the outcome of `fetchTokenWithRetry`. -/
def refreshComplete (s : UpsAuthClient) (now : Int)
    (raws : Nat → Except JsError TokenResponse) (rand : Nat → ℚ) :
    RetryTrace JsError String × UpsAuthClient :=
  let (trace, s₁) := fetchTokenWithRetry s now raws rand
  (trace, { s₁ with inflightRefresh := none })

end UpsAuthClient

end CarrierService

namespace CarrierService.UpsAuthClient

theorem getToken_not_cached (s : UpsAuthClient) (now : Int)
    (h : hasValidCached s now = false) :
    getToken s now = getTokenRefreshPath s := by
  unfold getToken
  unfold hasValidCached at h
  cases ht : s.token with
  | none => rfl
  | some t =>
    cases he : s.expiresAt with
    | none => rfl
    | some exp =>
      rw [ht, he] at h
      simp only [decide_eq_false_iff_not] at h
      simp [h]

theorem processCalls_inflight (now : Int) :
    ∀ (n : Nat) (s : UpsAuthClient) (id : Nat),
    hasValidCached s now = false → s.inflightRefresh = some id →
    processCalls s now n = (List.replicate n (.awaitInflight id), s) := by
  intro n
  induction n with
  | zero => intro s id _ _; rfl
  | succ m ih =>
    intro s id hvalid hin
    have hstep : getToken s now = (.awaitInflight id, s) := by
      rw [getToken_not_cached s now hvalid]
      unfold getTokenRefreshPath
      rw [hin]
    simp [processCalls, hstep, ih s id hvalid hin, List.replicate_succ]

/-- C3: `getToken` is single-flighted. While no valid cached token is
observable and a refresh is already in flight, every call returns that same
in-flight promise and changes nothing (in particular it starts no new
credential fetch); for any `n ≥ 1` back-to-back calls arriving with no valid
cached token and no refresh in flight, the first call starts exactly one
refresh and every later call awaits that same promise, so exactly one fetch
operation is issued and all `n` callers resolve to the value of that one
promise; and completion of the refresh clears the in-flight marker whether
`fetchTokenWithRetry` succeeded or failed. -/
theorem getToken_single_flight (s : UpsAuthClient) (now : Int) (n : Nat) :
    (hasValidCached s now = false → ∀ id, s.inflightRefresh = some id →
      getToken s now = (.awaitInflight id, s)) ∧
    (hasValidCached s now = false → s.inflightRefresh = none → 1 ≤ n →
      (processCalls s now n).1 =
        .startFetch s.refreshStarts ::
          List.replicate (n - 1) (.awaitInflight s.refreshStarts) ∧
      (processCalls s now n).2.refreshStarts = s.refreshStarts + 1 ∧
      (processCalls s now n).2.inflightRefresh = some s.refreshStarts) ∧
    (∀ (raws : Nat → Except JsError TokenResponse) (rand : Nat → ℚ),
      (refreshComplete s now raws rand).2.inflightRefresh = none) := by
  refine ⟨?_, ?_, ?_⟩
  · intro hvalid id hin
    rw [getToken_not_cached s now hvalid]
    unfold getTokenRefreshPath
    rw [hin]
  · intro hvalid hnone hn
    obtain ⟨m, hm⟩ : ∃ m, n = m + 1 := ⟨n - 1, by omega⟩
    subst hm
    have hstep : getToken s now =
        (.startFetch s.refreshStarts,
          { s with
              inflightRefresh := some s.refreshStarts
              refreshStarts := s.refreshStarts + 1 }) := by
      rw [getToken_not_cached s now hvalid]
      unfold getTokenRefreshPath
      rw [hnone]
    have hrest := processCalls_inflight now m
      { s with
          inflightRefresh := some s.refreshStarts
          refreshStarts := s.refreshStarts + 1 }
      s.refreshStarts hvalid rfl
    simp [processCalls, hstep, hrest]
  · intro raws rand
    rfl

/-- Witness for C3: a client with no token and a refresh in flight (id 5)
joins it; three back-to-back calls on a fresh client issue exactly one fetch;
completing a failed refresh clears the marker. -/
theorem getToken_single_flight_witness :
    (getToken ⟨none, none, some 5, 60, 6⟩ 1000 =
      (.awaitInflight 5, ⟨none, none, some 5, 60, 6⟩)) ∧
    ((processCalls ⟨none, none, none, 60, 0⟩ 1000 3).1 =
      [.startFetch 0, .awaitInflight 0, .awaitInflight 0] ∧
     (processCalls ⟨none, none, none, 60, 0⟩ 1000 3).2.refreshStarts = 1 ∧
     (processCalls ⟨none, none, none, 60, 0⟩ 1000 3).2.inflightRefresh = some 0) ∧
    (refreshComplete ⟨none, none, some 0, 60, 1⟩ 1000
        (fun _ => .error (.http 500)) (fun _ => 0)).2.inflightRefresh = none := by
  obtain ⟨h1, h2, _⟩ := getToken_single_flight ⟨none, none, some 5, 60, 6⟩ 1000 1
  obtain ⟨_, h2', _⟩ := getToken_single_flight ⟨none, none, none, 60, 0⟩ 1000 3
  obtain ⟨_, _, h3⟩ := getToken_single_flight ⟨none, none, some 0, 60, 1⟩ 1000 1
  refine ⟨h1 rfl 5 rfl, ?_, h3 (fun _ => .error (.http 500)) (fun _ => 0)⟩
  obtain ⟨ha, hb, hc⟩ := h2' rfl rfl (by decide)
  exact ⟨ha, hb, hc⟩

/-- C4 counterexample: a token fetched at t = 0 with server lifetime 3600 s
and buffer 60 s is stored with expiry 3,540,000 ms, yet at t = 3,500,000 ms —
inside the claimed 3540 s validity window — `getToken` does not return the
cached token: it starts a refresh, because the validity check compares the
remaining time against the buffer a second time instead of being a bare
comparison of the stored expiry against now. -/
theorem getToken_validity_counterexample :
    (fetchToken ⟨none, none, none, 60, 0⟩ 0
        (.ok ⟨some "tok", 3600⟩)).2.token = some "tok" ∧
    (fetchToken ⟨none, none, none, 60, 0⟩ 0
        (.ok ⟨some "tok", 3600⟩)).2.expiresAt = some 3540000 ∧
    (getToken (fetchToken ⟨none, none, none, 60, 0⟩ 0
        (.ok ⟨some "tok", 3600⟩)).2 3500000).1 = .startFetch 0 := by
  exact ⟨rfl, by decide, by decide⟩

/-- C4 amended: the buffer is subtracted once when the expiry is stored
(`expiresAt = issuedAt + (lifetime − buffer)·1000`) and compared against the
remaining time once more on every read, so a token fetched with server
lifetime `lifetime` s and buffer `b` s is treated by `getToken` as valid for
exactly `lifetime − 2·b` seconds from issuance: every call strictly inside
that window returns the cached token with no fetch, and the first call at or
after `issuedAt + (lifetime − 2·b)·1000` takes the refresh path. -/
theorem getToken_effective_validity (s : UpsAuthClient) (issuedAt : Int)
    (tok : String) (lifetime : Int) :
    ((fetchToken s issuedAt (.ok ⟨some tok, lifetime⟩)).2.expiresAt =
      some (issuedAt + (lifetime - s.tokenBufferSeconds) * 1000)) ∧
    (∀ now : Int,
      now < issuedAt + (lifetime - 2 * s.tokenBufferSeconds) * 1000 →
      getToken (fetchToken s issuedAt (.ok ⟨some tok, lifetime⟩)).2 now =
        (.cached tok, (fetchToken s issuedAt (.ok ⟨some tok, lifetime⟩)).2)) ∧
    (∀ now : Int,
      issuedAt + (lifetime - 2 * s.tokenBufferSeconds) * 1000 ≤ now →
      getToken (fetchToken s issuedAt (.ok ⟨some tok, lifetime⟩)).2 now =
        getTokenRefreshPath
          (fetchToken s issuedAt (.ok ⟨some tok, lifetime⟩)).2) := by
  refine ⟨rfl, ?_, ?_⟩
  · intro now hlt
    have hcond : s.tokenBufferSeconds * 1000 <
        issuedAt + (lifetime - s.tokenBufferSeconds) * 1000 - now := by nlinarith
    show getToken
      { s with
          token := some tok
          expiresAt := some (issuedAt + (lifetime - s.tokenBufferSeconds) * 1000) }
      now = _
    simp [getToken, fetchToken, hcond]
  · intro now hge
    have hcond : ¬(s.tokenBufferSeconds * 1000 <
        issuedAt + (lifetime - s.tokenBufferSeconds) * 1000 - now) := by nlinarith
    show getToken
      { s with
          token := some tok
          expiresAt := some (issuedAt + (lifetime - s.tokenBufferSeconds) * 1000) }
      now = _
    simp [getToken, fetchToken, hcond]

/-- Witness for C4's amended theorem at buffer 60 s, lifetime 3600 s,
issuance t = 0: cached at t = 1,000 ms, refresh path at t = 3,480,000 ms. -/
theorem getToken_effective_validity_witness :
    getToken (fetchToken ⟨none, none, none, 60, 0⟩ 0
        (.ok ⟨some "tok", 3600⟩)).2 1000 =
      (.cached "tok", (fetchToken ⟨none, none, none, 60, 0⟩ 0
        (.ok ⟨some "tok", 3600⟩)).2) ∧
    getToken (fetchToken ⟨none, none, none, 60, 0⟩ 0
        (.ok ⟨some "tok", 3600⟩)).2 3480000 =
      getTokenRefreshPath (fetchToken ⟨none, none, none, 60, 0⟩ 0
        (.ok ⟨some "tok", 3600⟩)).2 := by
  obtain ⟨_, hin, hout⟩ :=
    getToken_effective_validity ⟨none, none, none, 60, 0⟩ 0 "tok" 3600
  exact ⟨hin 1000 (by norm_num), hout 3480000 (by norm_num)⟩

/-- C5 (code defect evidence): the raw HTTP 500 failure is retryable by the
very predicate `fetchTokenWithRetry` installs, but `fetchToken`'s catch block
wraps every failure into a `CarrierError` whose message
(`"UPS authentication failed (HTTP 500)"`) matches neither the `HttpError`
branch nor any of the substrings `timeout`/`network`/`econnreset`, so the
predicate rejects the wrapped error and `withRetry` propagates the first
transient failure after exactly one fetch invocation — an issuer that fails
once with a 500 and would succeed on the next attempt is never retried. -/
theorem fetchTokenWithRetry_does_not_retry_http500 :
    authShouldRetry (.http 500) = true ∧
    (fetchToken ⟨none, none, none, 60, 0⟩ 0 (.error (.http 500))).1 =
      .error (.carrier "AUTH_FAILED" "UPS" true
        "UPS authentication failed (HTTP 500)" (some (.http 500))) ∧
    authShouldRetry (.carrier "AUTH_FAILED" "UPS" true
      "UPS authentication failed (HTTP 500)" (some (.http 500))) = false ∧
    (fetchTokenWithRetry ⟨none, none, none, 60, 0⟩ 0
        (fun k => if k = 1 then .error (.http 500)
                  else .ok ⟨some "tok", 3600⟩) (fun _ => 0)).1.invocations = 1 ∧
    (fetchTokenWithRetry ⟨none, none, none, 60, 0⟩ 0
        (fun k => if k = 1 then .error (.http 500)
                  else .ok ⟨some "tok", 3600⟩) (fun _ => 0)).1.result =
      .error (some (.carrier "AUTH_FAILED" "UPS" true
        "UPS authentication failed (HTTP 500)" (some (.http 500)))) := by
  exact ⟨by decide, rfl, by decide, rfl, rfl⟩

end CarrierService.UpsAuthClient

namespace CarrierService

/-! ## Domain model (`src/domain/models/*.ts`) and request validation
(`src/domain/validation/schemas.ts`) -/

/-- `Address`. -/
structure Address where
  street1 : String
  street2 : Option String
  city : String
  state : String
  postalCode : String
  countryCode : String
deriving DecidableEq, Repr

/-- The nested `dimensions` object of `Package` (inches). -/
structure Dimensions where
  length : ℚ
  width : ℚ
  height : ℚ
deriving DecidableEq, Repr

/-- `Package` (pounds and inches). -/
structure Package where
  weight : ℚ
  dimensions : Dimensions
deriving DecidableEq, Repr

/-- `ServiceLevel` enum. -/
inductive ServiceLevel where
  | GROUND
  | EXPRESS
  | OVERNIGHT
deriving DecidableEq, Repr

/-- The string value of a `ServiceLevel` member. -/
def ServiceLevel.toKey : ServiceLevel → String
  | .GROUND => "GROUND"
  | .EXPRESS => "EXPRESS"
  | .OVERNIGHT => "OVERNIGHT"

/-- `RateRequest`. -/
structure RateRequest where
  origin : Address
  destination : Address
  packages : List Package
  serviceLevel : Option ServiceLevel
deriving DecidableEq, Repr

/-- `RateQuote`. -/
structure RateQuote where
  carrier : String
  serviceCode : String
  serviceName : String
  amount : ℚ
  currency : String
  deliveryDays : Option Nat
deriving DecidableEq, Repr

/-- `val.trim().length > 0`: the string has a non-whitespace character. -/
def trimNonempty (s : String) : Bool := s.data.any (fun c => !c.isWhitespace)

/-- JavaScript `toUpperCase`, character by character. -/
def strToUpper (s : String) : String := ⟨s.data.map Char.toUpper⟩

/-- `VALID_COUNTRY_CODES`. -/
def VALID_COUNTRY_CODES : List String :=
  ["US", "CA", "MX", "GB", "DE", "FR", "IT", "ES", "AU", "NZ", "JP", "CN"]

/-- `US_CA_STATE_REGEX` (`^[A-Z]{2}$`) applied to a string. -/
def matchesStateRegex (s : String) : Bool :=
  s.length = 2 && s.data.all (fun c => 'A' ≤ c && c ≤ 'Z')

/-- `AddressSchema.parse` succeeds. `countryCode` is uppercased by the
schema's `.toUpperCase()` transform before the membership refinement. -/
def validAddress (a : Address) : Bool :=
  (1 ≤ a.street1.length && a.street1.length ≤ 35 && trimNonempty a.street1) &&
  (match a.street2 with
   | some s => s.length ≤ 35
   | none => true) &&
  (1 ≤ a.city.length && a.city.length ≤ 30 && trimNonempty a.city) &&
  (a.state.length = 2 && matchesStateRegex a.state) &&
  (3 ≤ a.postalCode.length && a.postalCode.length ≤ 10) &&
  (a.countryCode.length = 2 &&
    VALID_COUNTRY_CODES.contains (strToUpper a.countryCode))

/-- `PackageSchema.parse` succeeds (`0.1` written as `mkRat 1 10`). -/
def validPackage (p : Package) : Bool :=
  (decide (0 < p.weight) && decide (p.weight ≤ 150) &&
    decide (mkRat 1 10 ≤ p.weight)) &&
  (decide (0 < p.dimensions.length) && decide (p.dimensions.length ≤ 108)) &&
  (decide (0 < p.dimensions.width) && decide (p.dimensions.width ≤ 108)) &&
  (decide (0 < p.dimensions.height) && decide (p.dimensions.height ≤ 108))

/-- `RateRequestSchema.parse` succeeds (`serviceLevel` is optional and
well-typed by construction). -/
def validateRateRequest (r : RateRequest) : Bool :=
  validAddress r.origin && validAddress r.destination &&
  (1 ≤ r.packages.length && r.packages.length ≤ 200) &&
  r.packages.all validPackage

/-! ## RateService (`src/service/RateService.ts`) -/

/-- Lexicographic order on code units — JavaScript's default
`Array.prototype.sort` comparison for strings. -/
def charListLe : List Char → List Char → Bool
  | [], _ => true
  | _ :: _, [] => false
  | a :: as, b :: bs =>
    if a.toNat < b.toNat then true
    else if b.toNat < a.toNat then false
    else charListLe as bs

/-- `a` sorts no later than `b` under the JavaScript default comparator. -/
def strLe (a b : String) : Bool := charListLe a.data b.data

/-- Insert into a sorted list. -/
def insertSorted (x : String) : List String → List String
  | [] => [x]
  | y :: ys => if strLe x y then x :: y :: ys else y :: insertSorted x ys

/-- `Array.prototype.sort()` on strings. The sorted output is fully
determined by the multiset of strings (equal elements are identical), so any
correct comparison sort embeds it. -/
def sortStrings : List String → List String
  | [] => []
  | x :: xs => insertSorted x (sortStrings xs)

/-- JavaScript number-to-string as used inside the `${…}x${…}x${…}` template:
embedded as an injective rendering of the rational value (JavaScript's
float formatting is likewise a deterministic injective function of the
value, which is all the proofs rely on). -/
def jsNumToString (q : ℚ) : String :=
  if q.den = 1 then toString q.num
  else toString q.num ++ "/" ++ toString q.den

/-- `Math.round`-style rounding of `x` to an integer (`⌊x + 1/2⌋`, written
over numerator and denominator so it evaluates), used by `toFixed(1)`. -/
def jsRound (x : ℚ) : Int := (2 * x.num + x.den).fdiv (2 * x.den)

/-- `totalWeight.toFixed(1)` for the nonnegative weights that pass
validation: one decimal digit, rounded. -/
def toFixed1 (q : ℚ) : String :=
  let n : Int := jsRound (q * 10)
  toString (n / 10) ++ "." ++ toString ((n % 10).natAbs)

/-- `packages.reduce((sum, p) => sum + p.weight, 0)`. -/
def totalWeight (packages : List Package) : ℚ :=
  packages.foldl (fun sum p => sum + p.weight) 0

/-- The `${length}x${width}x${height}` signature of one package. -/
def dimensionSignature (p : Package) : String :=
  jsNumToString p.dimensions.length ++ "x" ++
    jsNumToString p.dimensions.width ++ "x" ++
      jsNumToString p.dimensions.height

/-- `packages.map(signature).sort().join('|')`. -/
def dimensionsKey (packages : List Package) : String :=
  String.intercalate "|" (sortStrings (packages.map dimensionSignature))

/-- `serviceLevel || 'ALL'`. -/
def serviceLevelKey : Option ServiceLevel → String
  | some s => s.toKey
  | none => "ALL"

/-- `generateCacheKey`: the five components joined with `':'` (the
`[…].join(':')` written out). -/
def generateCacheKey (request : RateRequest) : String :=
  (request.origin.postalCode ++ "-" ++ request.origin.countryCode) ++ ":" ++
  (request.destination.postalCode ++ "-" ++ request.destination.countryCode) ++ ":" ++
  toFixed1 (totalWeight request.packages) ++ ":" ++
  dimensionsKey request.packages ++ ":" ++
  serviceLevelKey request.serviceLevel

/-- A cached value: the quotes plus the service's own redundant
`expiresAt` bookkeeping field (never read back). -/
structure CachedRates where
  quotes : List RateQuote
  expiresAt : Nat
deriving DecidableEq, Repr

/-- One entry of the LRU cache: the value and the time it was set or last
read (the store is configured with `updateAgeOnGet: true`). -/
structure CacheEntry where
  value : CachedRates
  setAt : Nat
deriving DecidableEq, Repr

/-- The `lru-cache` store, modelled at its interface as an association list
(most recently written first). Capacity eviction is not modelled; the claims
under proof never exceed one key. -/
abbrev RateCache := List (String × CacheEntry)

/-- `cache.get(k)` at time `now` with per-item TTL `ttl`: a hit returns the
value and refreshes the entry's age (`updateAgeOnGet`); an expired or absent
entry misses. -/
def cacheGet (ttl now : Nat) (c : RateCache) (k : String) :
    Option CachedRates × RateCache :=
  match c.find? (fun e => e.1 == k) with
  | none => (none, c)
  | some e =>
    if now - e.2.setAt < ttl then
      (some e.2.value,
        (k, { e.2 with setAt := now }) :: c.filter (fun x => !(x.1 == k)))
    else (none, c)

/-- `cache.set(k, v)` at time `now`. -/
def cacheSet (now : Nat) (c : RateCache) (k : String) (v : CachedRates) :
    RateCache :=
  (k, { value := v, setAt := now }) :: c.filter (fun x => !(x.1 == k))

/-- What `RateService.getRates` can throw: the raw `ZodError` from
`RateRequestSchema.parse`, or a typed `CarrierError` (no path of the method
actually produces the latter — that is the subject of one of the claims). -/
inductive ServiceThrown where
  | zodValidationError
  | carrierError (e : JsError)
deriving Repr

/-- Whether a thrown value is a typed `CarrierError`. -/
def ServiceThrown.isCarrierError : ServiceThrown → Bool
  | .zodValidationError => false
  | .carrierError _ => true

/-- `RateService.getRates`. Each carrier is modelled by the outcome its
`getRates(request)` promise settles with; `Promise.allSettled` maps the
registered carriers over the request, and the for-loop concatenates fulfilled
values in registration order, skipping (logging) rejections. Returns the
result, the updated cache, and the number of carrier invocations. -/
def getRates (carriers : List (RateRequest → Except JsError (List RateQuote)))
    (cacheTtlMs : Nat) (cache : RateCache) (now : Nat) (request : RateRequest) :
    Except ServiceThrown (List RateQuote) × RateCache × Nat :=
  if validateRateRequest request then
    match cacheGet cacheTtlMs now cache (generateCacheKey request) with
    | (some cached, cache₁) => (.ok cached.quotes, cache₁, 0)
    | (none, cache₁) =>
      let results := carriers.map (fun c => c request)
      let quotes := results.foldl (fun acc r =>
        match r with
        | .ok v => acc ++ v
        | .error _ => acc) []
      (.ok quotes,
        cacheSet now cache₁ (generateCacheKey request)
          { quotes := quotes, expiresAt := now + cacheTtlMs },
        carriers.length)
  else (.error .zodValidationError, cache, 0)

end CarrierService

namespace CarrierService

theorem quotes_foldl_eq (results : List (Except JsError (List RateQuote))) :
    ∀ acc, results.foldl (fun acc r =>
        match r with
        | .ok v => acc ++ v
        | .error _ => acc) acc =
      acc ++ (results.filterMap Except.toOption).flatten := by
  induction results with
  | nil => intro acc; simp
  | cons r rs ih =>
    intro acc
    cases r with
    | ok v => simp [List.foldl, ih, Except.toOption, List.append_assoc]
    | error e => simp [List.foldl, ih, Except.toOption]

theorem getRates_miss (carriers : List (RateRequest → Except JsError (List RateQuote)))
    (ttl : Nat) (cache : RateCache) (now : Nat) (request : RateRequest)
    (hvalid : validateRateRequest request = true)
    (hmiss : (cacheGet ttl now cache (generateCacheKey request)).1 = none) :
    getRates carriers ttl cache now request =
      (.ok ((carriers.map (fun c => c request)).filterMap Except.toOption).flatten,
       cacheSet now (cacheGet ttl now cache (generateCacheKey request)).2
         (generateCacheKey request)
         { quotes := ((carriers.map (fun c => c request)).filterMap
             Except.toOption).flatten,
           expiresAt := now + ttl },
       carriers.length) := by
  have hsplit : cacheGet ttl now cache (generateCacheKey request) =
      (none, (cacheGet ttl now cache (generateCacheKey request)).2) :=
    Prod.ext hmiss rfl
  unfold getRates
  rw [hvalid, hsplit]
  simp [quotes_foldl_eq]

theorem getRates_hit (carriers : List (RateRequest → Except JsError (List RateQuote)))
    (ttl : Nat) (cache : RateCache) (now : Nat) (request : RateRequest)
    (cached : CachedRates)
    (hvalid : validateRateRequest request = true)
    (hhit : (cacheGet ttl now cache (generateCacheKey request)).1 = some cached) :
    getRates carriers ttl cache now request =
      (.ok cached.quotes,
       (cacheGet ttl now cache (generateCacheKey request)).2, 0) := by
  have hsplit : cacheGet ttl now cache (generateCacheKey request) =
      (some cached, (cacheGet ttl now cache (generateCacheKey request)).2) :=
    Prod.ext hhit rfl
  unfold getRates
  rw [hvalid, hsplit]
  rfl

theorem cacheGet_miss_snd (ttl now : Nat) (c : RateCache) (k : String)
    (h : (cacheGet ttl now c k).1 = none) : (cacheGet ttl now c k).2 = c := by
  unfold cacheGet at *
  cases hf : c.find? (fun e => e.1 == k) with
  | none => rfl
  | some e =>
    rw [hf] at h
    by_cases hfresh : now - e.2.setAt < ttl
    · simp [hfresh] at h
    · simp [hfresh]

/-- C1: for every rate request that passes validation and misses the cache,
`getRates` invokes every configured carrier (the invocation count equals the
number of registered carriers), returns the concatenation of the fulfilled
carriers' quote lists in carrier-registration order (rejected carriers
contribute nothing and nothing is re-thrown), and when every configured
carrier fails the result is the empty list, returned normally rather than
thrown. -/
theorem getRates_partial_failure_aggregation
    (carriers : List (RateRequest → Except JsError (List RateQuote)))
    (ttl : Nat) (cache : RateCache) (now : Nat) (request : RateRequest)
    (hvalid : validateRateRequest request = true)
    (hmiss : (cacheGet ttl now cache (generateCacheKey request)).1 = none) :
    (getRates carriers ttl cache now request).1 =
      .ok ((carriers.map (fun c => c request)).filterMap Except.toOption).flatten ∧
    (getRates carriers ttl cache now request).2.2 = carriers.length ∧
    ((∀ c ∈ carriers, (c request).toOption = none) →
      (getRates carriers ttl cache now request).1 = .ok []) := by
  rw [getRates_miss carriers ttl cache now request hvalid hmiss]
  refine ⟨rfl, rfl, ?_⟩
  intro hfail
  have hnil : (carriers.map (fun c => c request)).filterMap Except.toOption = [] := by
    rw [List.filterMap_eq_nil_iff]
    intro a ha
    obtain ⟨c, hc, hca⟩ := List.mem_map.mp ha
    rw [← hca]
    exact hfail c hc
  simp [hnil]

/-- C8: every request that fails validation makes `getRates` fail
immediately with the validation error: zero carrier invocations, and the
cache is returned untouched (it is neither consulted nor modified). -/
theorem getRates_validation_short_circuit
    (carriers : List (RateRequest → Except JsError (List RateQuote)))
    (ttl : Nat) (cache : RateCache) (now : Nat) (request : RateRequest)
    (h : validateRateRequest request = false) :
    getRates carriers ttl cache now request =
      (.error .zodValidationError, cache, 0) := by
  unfold getRates
  rw [h]
  simp

/-- A well-formed origin address used by the concrete scenarios. -/
def addrMemphis : Address := ⟨"100 Main St", none, "Memphis", "TN", "38101", "US"⟩

/-- A well-formed destination address used by the concrete scenarios. -/
def addrAustin : Address := ⟨"200 Oak Ave", none, "Austin", "TX", "73301", "US"⟩

/-- A request whose `packages` array is empty (fails validation). -/
def emptyPackagesRequest : RateRequest := ⟨addrMemphis, addrAustin, [], none⟩

/-- A request with one 151-pound package (fails the 150 weight ceiling). -/
def overweightRequest : RateRequest :=
  ⟨addrMemphis, addrAustin, [⟨151, ⟨10, 10, 10⟩⟩], none⟩

/-- A request that passes validation. -/
def validRequest : RateRequest :=
  ⟨addrMemphis, addrAustin, [⟨5, ⟨10, 8, 4⟩⟩], none⟩

/-- C9 counterexample: on a request with an empty `packages` array the error
`getRates` throws is the raw validation (Zod) error, which is not a typed
`CarrierError` — so not every error thrown to the caller is a typed
`CarrierError`. -/
theorem getRates_raw_validation_error_counterexample :
    (getRates [fun _ => .ok []] 30000 [] 0 emptyPackagesRequest).1 =
      .error .zodValidationError ∧
    ServiceThrown.isCarrierError .zodValidationError = false := by
  exact ⟨rfl, rfl⟩

/-- C9 amended: the only error `getRates` itself ever throws is the raw
request-validation (Zod) error — thrown exactly when validation fails, and
never a typed `CarrierError` (carrier and transport failures are swallowed
by the aggregation loop and never propagate). -/
theorem getRates_throws_only_raw_validation_error
    (carriers : List (RateRequest → Except JsError (List RateQuote)))
    (ttl : Nat) (cache : RateCache) (now : Nat) (request : RateRequest)
    (x : ServiceThrown)
    (h : (getRates carriers ttl cache now request).1 = .error x) :
    x = .zodValidationError ∧ x.isCarrierError = false ∧
    validateRateRequest request = false := by
  by_cases hv : validateRateRequest request = true
  · exfalso
    cases hc : cacheGet ttl now cache (generateCacheKey request) with
    | mk o cache₁ =>
      cases o with
      | none =>
        rw [getRates_miss carriers ttl cache now request hv
          (by rw [hc])] at h
        simp at h
      | some cached =>
        unfold getRates at h
        rw [hv, hc] at h
        simp at h
  · have hfalse : validateRateRequest request = false := by
      revert hv
      cases validateRateRequest request <;> simp
    rw [getRates_validation_short_circuit carriers ttl cache now request
      hfalse] at h
    simp at h
    exact ⟨h.symm, by rw [← h]; rfl, hfalse⟩

/-- Witness for C9's amended theorem: the empty-packages request from the
counterexample, one configured carrier. -/
theorem getRates_throws_only_raw_validation_error_witness :
    ServiceThrown.zodValidationError = .zodValidationError ∧
    ServiceThrown.isCarrierError .zodValidationError = false ∧
    validateRateRequest emptyPackagesRequest = false :=
  getRates_throws_only_raw_validation_error [fun _ => .ok []] 30000 [] 0
    emptyPackagesRequest .zodValidationError rfl

end CarrierService

namespace CarrierService

/-- A sample ground quote. -/
def quoteA : RateQuote := ⟨"UPS", "03", "UPS Ground", 23, "USD", some 3⟩

/-- A sample express quote. -/
def quoteB : RateQuote := ⟨"UPS", "02", "UPS 2nd Day Air", 41, "USD", some 2⟩

theorem filterMap_toOption_nil
    (carriers : List (RateRequest → Except JsError (List RateQuote)))
    (request : RateRequest)
    (hfail : ∀ c ∈ carriers, (c request).toOption = none) :
    (carriers.map (fun c => c request)).filterMap Except.toOption = [] := by
  rw [List.filterMap_eq_nil_iff]
  intro a ha
  obtain ⟨c, hc, hca⟩ := List.mem_map.mp ha
  rw [← hca]
  exact hfail c hc

/-- Witness for C1: one carrier fulfilling with two quotes and one rejecting
with an HTTP 503 yield exactly the two quotes with both carriers invoked; two
rejecting carriers yield the empty list, returned rather than thrown. -/
theorem getRates_partial_failure_aggregation_witness :
    (getRates [fun _ => .ok [quoteA, quoteB], fun _ => .error (.http 503)]
        30000 [] 0 validRequest).1 = .ok [quoteA, quoteB] ∧
    (getRates [fun _ => .ok [quoteA, quoteB], fun _ => .error (.http 503)]
        30000 [] 0 validRequest).2.2 = 2 ∧
    (getRates [fun _ => .error (.http 500), fun _ => .error (.http 503)]
        30000 [] 0 validRequest).1 = .ok [] := by
  obtain ⟨h1, h2, _⟩ := getRates_partial_failure_aggregation
    [fun _ => .ok [quoteA, quoteB], fun _ => .error (.http 503)] 30000 [] 0
    validRequest (by decide) rfl
  obtain ⟨_, _, h3⟩ := getRates_partial_failure_aggregation
    [fun _ => .error (.http 500), fun _ => .error (.http 503)] 30000 [] 0
    validRequest (by decide) rfl
  refine ⟨?_, by rw [h2]; rfl, h3 ?_⟩
  · rw [h1]; rfl
  · intro c hc
    simp only [List.mem_cons, List.mem_singleton, List.not_mem_nil,
      or_false] at hc
    rcases hc with hc | hc <;> subst hc <;> rfl

/-- Witness for C8: the empty-packages request and the 151-pound request both
fail validation, and `getRates` fails immediately with the validation error,
zero carrier invocations and an untouched cache even with a working carrier
registered. -/
theorem getRates_validation_short_circuit_witness :
    validateRateRequest emptyPackagesRequest = false ∧
    getRates [fun _ => .ok [quoteA]] 30000 [] 5 emptyPackagesRequest =
      (.error .zodValidationError, [], 0) ∧
    validateRateRequest overweightRequest = false ∧
    getRates [fun _ => .ok [quoteA]] 30000 [] 5 overweightRequest =
      (.error .zodValidationError, [], 0) :=
  ⟨by decide,
   getRates_validation_short_circuit [fun _ => .ok [quoteA]] 30000 [] 5
     emptyPackagesRequest (by decide),
   by decide,
   getRates_validation_short_circuit [fun _ => .ok [quoteA]] 30000 [] 5
     overweightRequest (by decide)⟩

/-- C10 (implicit): when every configured carrier fails on a validated,
cache-missing request, `getRates` returns the empty list and stores it in the
cache under the request's fingerprint, so every fingerprint-equivalent valid
request arriving within the cache TTL gets the empty list back as a cache
hit with zero carrier invocations — the total upstream failure is negatively
cached for the full TTL. -/
theorem getRates_total_failure_negative_caching
    (carriers : List (RateRequest → Except JsError (List RateQuote)))
    (ttl : Nat) (cache : RateCache) (now : Nat) (request : RateRequest)
    (hvalid : validateRateRequest request = true)
    (hmiss : (cacheGet ttl now cache (generateCacheKey request)).1 = none)
    (hfail : ∀ c ∈ carriers, (c request).toOption = none) :
    (getRates carriers ttl cache now request).1 = .ok [] ∧
    (∀ (request₂ : RateRequest) (now₂ : Nat)
        (carriers₂ : List (RateRequest → Except JsError (List RateQuote))),
      validateRateRequest request₂ = true →
      generateCacheKey request₂ = generateCacheKey request →
      now₂ - now < ttl →
      (getRates carriers₂ ttl (getRates carriers ttl cache now request).2.1
          now₂ request₂).1 = .ok [] ∧
      (getRates carriers₂ ttl (getRates carriers ttl cache now request).2.1
          now₂ request₂).2.2 = 0) := by
  have hmain := getRates_miss carriers ttl cache now request hvalid hmiss
  have hnil := filterMap_toOption_nil carriers request hfail
  have hstate : (getRates carriers ttl cache now request).2.1 =
      (generateCacheKey request,
        ({ value := { quotes := [], expiresAt := now + ttl },
           setAt := now } : CacheEntry)) ::
        cache.filter (fun x => !(x.1 == generateCacheKey request)) := by
    rw [hmain]
    show cacheSet now (cacheGet ttl now cache (generateCacheKey request)).2
      (generateCacheKey request) _ = _
    rw [cacheGet_miss_snd ttl now cache _ hmiss]
    unfold cacheSet
    rw [hnil]
    rfl
  constructor
  · rw [hmain]
    show Except.ok _ = _
    rw [hnil]
    rfl
  · intro request₂ now₂ carriers₂ hvalid₂ hkey httl
    have h1 : (cacheGet ttl now₂
        ((getRates carriers ttl cache now request).2.1)
        (generateCacheKey request₂)).1 =
        some { quotes := [], expiresAt := now + ttl } := by
      rw [hstate, hkey]
      unfold cacheGet
      rw [List.find?_cons_of_pos _ (by simp)]
      simp [httl]
    rw [getRates_hit carriers₂ ttl _ now₂ request₂ _ hvalid₂ h1]
    exact ⟨rfl, rfl⟩

/-- Witness for C10: a single failing carrier on the valid request at t = 0
with TTL 30000 ms; the same request re-issued at t = 10,000 ms against a
carrier that would succeed returns the cached empty list with zero
invocations. -/
theorem getRates_total_failure_negative_caching_witness :
    (getRates [fun _ => .error (.http 500)] 30000 [] 0 validRequest).1 =
      .ok [] ∧
    (getRates [fun _ => .ok [quoteA]] 30000
        (getRates [fun _ => .error (.http 500)] 30000 [] 0 validRequest).2.1
        10000 validRequest).1 = .ok [] ∧
    (getRates [fun _ => .ok [quoteA]] 30000
        (getRates [fun _ => .error (.http 500)] 30000 [] 0 validRequest).2.1
        10000 validRequest).2.2 = 0 := by
  obtain ⟨h1, h2⟩ := getRates_total_failure_negative_caching
    [fun _ => .error (.http 500)] 30000 [] 0 validRequest (by decide) rfl
    (by intro c hc
        simp only [List.mem_singleton] at hc
        subst hc
        rfl)
  obtain ⟨h2a, h2b⟩ := h2 validRequest 10000 [fun _ => .ok [quoteA]]
    (by decide) rfl (by decide)
  exact ⟨h1, h2a, h2b⟩

end CarrierService

namespace CarrierService

theorem str_data_inj {a b : String} (h : a.data = b.data) : a = b := by
  cases a
  cases b
  simp_all

theorem dash_data : ("-" : String).data = ['-'] := rfl

theorem colon_data : (":" : String).data = [':'] := rfl

theorem generateCacheKey_data (r : RateRequest) :
    (generateCacheKey r).data =
      (r.origin.postalCode.data ++ '-' :: r.origin.countryCode.data ++ [':']) ++
      (r.destination.postalCode.data ++
        ('-' :: r.destination.countryCode.data ++ ':' ::
          (toFixed1 (totalWeight r.packages)).data ++ ':' ::
          (dimensionsKey r.packages).data ++ ':' ::
          (serviceLevelKey r.serviceLevel).data)) := by
  unfold generateCacheKey
  simp [String.data_append, dash_data, colon_data, List.append_assoc]

/-- C7: the cache fingerprint is a deterministic function of exactly the
origin postal code + country, destination postal code + country, total
package weight, sorted package-dimension signatures, and service level (or
"ALL"): any two requests agreeing on those fields produce the same key
whatever their other fields (street, city, state, object layout), and two
requests differing only in the destination postal code produce different
keys. -/
theorem generateCacheKey_fingerprint :
    (∀ r₁ r₂ : RateRequest,
      r₁.origin.postalCode = r₂.origin.postalCode →
      r₁.origin.countryCode = r₂.origin.countryCode →
      r₁.destination.postalCode = r₂.destination.postalCode →
      r₁.destination.countryCode = r₂.destination.countryCode →
      totalWeight r₁.packages = totalWeight r₂.packages →
      sortStrings (r₁.packages.map dimensionSignature) =
        sortStrings (r₂.packages.map dimensionSignature) →
      r₁.serviceLevel = r₂.serviceLevel →
      generateCacheKey r₁ = generateCacheKey r₂) ∧
    (∀ (r : RateRequest) (p : String),
      p ≠ r.destination.postalCode →
      generateCacheKey
        { r with destination := { r.destination with postalCode := p } } ≠
        generateCacheKey r) := by
  constructor
  · intro r₁ r₂ h1 h2 h3 h4 h5 h6 h7
    unfold generateCacheKey dimensionsKey
    rw [h1, h2, h3, h4, h5, h6, h7]
  · intro r p hne hkeys
    apply hne
    have hdata := congrArg String.data hkeys
    rw [generateCacheKey_data, generateCacheKey_data] at hdata
    dsimp only at hdata
    have h₁ := List.append_cancel_left hdata
    exact str_data_inj (List.append_cancel_right h₁)

/-- The valid request with a different origin street (a
fingerprint-irrelevant field). -/
def validRequestAltStreet : RateRequest :=
  ⟨⟨"101 Main St", none, "Memphis", "TN", "38101", "US"⟩, addrAustin,
    [⟨5, ⟨10, 8, 4⟩⟩], none⟩

/-- Witness for C7: changing only the origin street leaves the key
unchanged; changing only the destination postal code (73301 → 90210)
changes it. -/
theorem generateCacheKey_fingerprint_witness :
    generateCacheKey validRequest = generateCacheKey validRequestAltStreet ∧
    generateCacheKey
        { validRequest with destination :=
            { validRequest.destination with postalCode := "90210" } } ≠
      generateCacheKey validRequest := by
  obtain ⟨hcong, hdist⟩ := generateCacheKey_fingerprint
  exact ⟨hcong validRequest validRequestAltStreet rfl rfl rfl rfl rfl rfl rfl,
    hdist validRequest "90210" (by decide)⟩

end CarrierService
